import Mathlib

/-!
# TLogger: an asynchronous file logger and its writer thread

A shallow embedding of `logger.cpp` / `logger.h`.

* The logger object (`TLogger`) is a record of the fields the class declares.
* The file system is a map from path to content; `none` is "no such file".
* The writer thread (`LoggerThread`) is a step function over a program counter
  (`Pc`) whose values are the places of the source where another thread can
  observe the writer: the loop head, inside `LoggerDoWrite`, the stop check and
  the drain loop.
* A call of `Log` is one step: the critical section admits one caller at a time, and
  the queue mutex is held only around `Strings->Add`.
* Results of operating-system calls on which the source branches
  (`WaitForSingleObject`, the `TFileStream` constructor, `CreateThread`, the
  handle checks at thread entry) are inputs of the functions that branch on them.
  So is the result of `DeleteFile`, which the source ignores: the call fails while
  the writer holds the file open inside `LoggerDoWrite`, and `Log` does not wait
  for the writer before it calls it. `SetEvent` and `ReleaseMutex` have their
  documented effect.
* `vsprintf` and `Now().FormatString` are collaborators: the rendered text
  `szBuf` and the clock `Now` are inputs of `Log`.
* The step model takes every answer of the operating system in every state, so it
  has at least the runs of the program; what holds of all its runs holds of the
  program.

`pushed`, `handed`, `attempts` and `started` are history variables: they record
what the code did and are never read by it.
-/

set_option linter.dupNamespace false

namespace Logger

/-! ## Operating-system collaborators -/

/-- Return codes of `WaitForSingleObject` that the source tells apart. -/
inductive WaitResult
  | WAIT_OBJECT_0
  | WAIT_ABANDONED
  | WAIT_TIMEOUT
  | WAIT_FAILED
  deriving DecidableEq, Repr

/-- File system: the content stored under each path, `none` when there is no file. -/
abbrev Files := String → Option String

/-- Content read from a path; a missing file reads as the empty text. -/
def content (c : Option String) : String :=
  match c with
  | some s => s
  | none => ""

/-- Win32 `DeleteFile`. `deleted` is the value the call returns: when it is `true` the
path holds no file afterwards; when it is `false` (there is no such file, or the file
is open elsewhere without delete sharing, as it is while the writer has it open with
`fmShareDenyWrite`) nothing changes. -/
def DeleteFile (fs : Files) (File : String) (deleted : Bool) : Files :=
  if deleted then fun p => if p = File then none else fs p else fs

/-- VCL `FileExists`. -/
def FileExists (fs : Files) (File : String) : Bool :=
  (fs File).isSome

/-- Store `data` under `File`, leaving every other path alone. -/
def store (fs : Files) (File data : String) : Files :=
  fun p => if p = File then some data else fs p

/-- Concatenation of a list of entries, first entry first. -/
def joined : List String → String
  | [] => ""
  | m :: ms => m ++ joined ms

/-- `LoggerDoWrite` (logger.cpp 38-62). `opened = false` is the case in which the
`TFileStream` constructor throws `EFOpenError` / `EFCreateError`; the handler
returns without touching the file. Otherwise the stream is positioned at the end
of the existing file, or of the newly created empty one, and `Msg` is written. -/
def LoggerDoWrite (fs : Files) (File Msg : String) (opened : Bool) : Files :=
  if opened then
    if FileExists fs File then
      store fs File (content (fs File) ++ Msg)
    else
      store fs File Msg
  else
    fs

/-! ## The logger object -/

/-- Fields of `class TLogger` (logger.h 46-58). `hThread = none` is `NULL`; the two
events are manual-reset events, represented by their signalled state. The critical
section and the queue mutex carry no data: `Log` runs as one step, and the mutex
is held by the writer exactly at the `Pc` values `drainLoop` and `drainWrite`. -/
structure TLogger where
  Strings : List String
  hThread : Option Nat
  ActiveEvent : Bool
  StopEvent : Bool
  FAddReturns : Bool
  FAppend : Bool
  FFile : String
  FLevel : Int
  FTimeFormat : String
  FTimeStamp : Bool
  deriving DecidableEq

/-- `TLogger::TLogger(File, Append)` (logger.cpp 163-177). -/
def TLogger.TLogger (File : String) (Append : Bool) : TLogger :=
  { Strings := []
    hThread := none
    ActiveEvent := false
    StopEvent := false
    FAddReturns := false
    FAppend := Append
    FFile := File
    FLevel := 5
    FTimeFormat := "dd/mm/yy hh:nn:ss "
    FTimeStamp := true }

/-- `TLogger::GetActive` (logger.cpp 202-206): a zero-time wait on the active event. -/
def TLogger.GetActive (o : Logger.TLogger) : Bool :=
  o.ActiveEvent

/-- Where the writer thread stands. -/
inductive Pc
  /-- No thread exists. -/
  | absent
  /-- Line 78: the thread has been created and is about to open its handles. -/
  | entry
  /-- Line 104: at `WaitForSingleObject(hMutex,1000)`. -/
  | loopTop
  /-- Line 120: the active event is set and `LoggerDoWrite(Filename, Msg)` is running. -/
  | inWrite (Msg : String)
  /-- Line 132: at the zero-time wait on the stop event. -/
  | checkStop
  /-- Line 135: at the condition of the drain loop; the writer holds the mutex. -/
  | drainLoop
  /-- Line 136: `LoggerDoWrite(Filename, Strings[0])` is running in the drain loop. -/
  | drainWrite
  /-- The thread function has returned `code`. -/
  | exited (code : Int)
  deriving DecidableEq

/-- The whole system: the object, the files, the writer thread and the history. -/
structure World where
  obj : TLogger
  files : Files
  pc : Pc
  /-- The field `ls->Filename`, copied from `FFile` when the thread is created. -/
  Filename : String
  /-- History: every entry added by `Strings->Add`, in order. -/
  pushed : List String
  /-- History: every message whose `LoggerDoWrite` call has returned, in order. -/
  handed : List String
  /-- History: number of `CreateThread` calls. -/
  attempts : Nat
  /-- History: number of `CreateThread` calls that returned a thread. -/
  started : Nat

/-- The text `m` that `Log` builds (logger.cpp 239-245). -/
def render (o : TLogger) (szBuf : String) (Now : String → String) : String :=
  let m := if o.FTimeStamp then Now o.FTimeFormat else ""
  let m := m ++ szBuf
  if o.FAddReturns then m ++ "\r\n" else m

/-- `TLogger::Log` (logger.cpp 217-265). `szBuf` is what `vsprintf` rendered,
`Now` is the clock formatted with a pattern, `deleted` is what `DeleteFile` returns
when it is called, `wait` is the result of
`WaitForSingleObject(hMutex,INFINITE)` and `hNew` is what `CreateThread` returns
(`none` for `NULL`). -/
def TLogger.Log (w : World) (Level : Int) (szBuf : String) (Now : String → String)
    (deleted : Bool) (wait : WaitResult) (hNew : Option Nat) : World :=
  if Level ≤ w.obj.FLevel then
    let files := if !w.obj.FAppend then DeleteFile w.files w.obj.FFile deleted else w.files
    let m := render w.obj szBuf Now
    if wait = WaitResult.WAIT_OBJECT_0 then
      let Strings := w.obj.Strings ++ [m]
      if w.obj.hThread = none then
        { w with
          obj := { w.obj with Strings := Strings, hThread := hNew }
          files := files
          pc := if hNew.isSome then Pc.entry else w.pc
          Filename := if hNew.isSome then w.obj.FFile else w.Filename
          pushed := w.pushed ++ [m]
          attempts := w.attempts + 1
          started := if hNew.isSome then w.started + 1 else w.started }
      else
        { w with
          obj := { w.obj with Strings := Strings }
          files := files
          pushed := w.pushed ++ [m] }
    else
      { w with files := files }
  else
    w

/-- `TLogger::~TLogger` up to the bounded wait (logger.cpp 186-188): the stop event
is set when a thread was created. The release of the members after the wait ends
the life of the object and is outside the model. -/
def TLogger.destructor (w : World) : World :=
  if w.obj.hThread ≠ none then
    { w with obj := { w.obj with StopEvent := true } }
  else
    w

/-! ## The writer thread -/

/-- What the operating system answers to the writer in one step: whether each handle
opened at entry compares equal to `INVALID_HANDLE_VALUE`, the result of the wait on
the mutex, and whether the file stream could be constructed. -/
structure Oracle where
  mutexInvalid : Bool
  activeInvalid : Bool
  stopInvalid : Bool
  wait : WaitResult
  opened : Bool
  deriving DecidableEq

/-- Every call succeeds. -/
def Oracle.good : Oracle :=
  { mutexInvalid := false
    activeInvalid := false
    stopInvalid := false
    wait := WaitResult.WAIT_OBJECT_0
    opened := true }

/-- One step of `LoggerThread` (logger.cpp 70-151) from the current `Pc`. -/
def LoggerThread (w : World) (env : Oracle) : World :=
  match w.pc with
  | Pc.absent => w
  | Pc.entry =>
    if env.mutexInvalid then { w with pc := Pc.exited (-1) }
    else if env.activeInvalid then { w with pc := Pc.exited (-1) }
    else if env.stopInvalid then { w with pc := Pc.exited (-1) }
    else { w with pc := Pc.loopTop }
  | Pc.loopTop =>
    match env.wait with
    | WaitResult.WAIT_ABANDONED => { w with pc := Pc.exited (-1) }
    | WaitResult.WAIT_OBJECT_0 =>
      match w.obj.Strings with
      | Msg :: rest =>
        { w with
          obj := { w.obj with Strings := rest, ActiveEvent := true }
          pc := Pc.inWrite Msg }
      | [] => { w with pc := Pc.checkStop }
    | WaitResult.WAIT_TIMEOUT => { w with pc := Pc.checkStop }
    | WaitResult.WAIT_FAILED => w
  | Pc.inWrite Msg =>
    { w with
      files := LoggerDoWrite w.files w.Filename Msg env.opened
      obj := { w.obj with ActiveEvent := false }
      handed := w.handed ++ [Msg]
      pc := Pc.checkStop }
  | Pc.checkStop =>
    if w.obj.StopEvent then
      if env.wait = WaitResult.WAIT_OBJECT_0 then { w with pc := Pc.drainLoop }
      else { w with pc := Pc.exited 0 }
    else
      { w with pc := Pc.loopTop }
  | Pc.drainLoop =>
    match w.obj.Strings with
    | _ :: _ => { w with pc := Pc.drainWrite }
    | [] => { w with pc := Pc.exited 0 }
  | Pc.drainWrite =>
    match w.obj.Strings with
    | Msg :: rest =>
      { w with
        files := LoggerDoWrite w.files w.Filename Msg env.opened
        obj := { w.obj with Strings := rest }
        handed := w.handed ++ [Msg]
        pc := Pc.drainLoop }
    | [] => { w with pc := Pc.drainLoop }
  | Pc.exited _ => w

/-- The writer is inside a call of `LoggerDoWrite`. -/
def inLoggerDoWrite (w : World) : Bool :=
  match w.pc with
  | Pc.inWrite _ => true
  | Pc.drainWrite => true
  | _ => false

/-! ## The step model -/

/-- What can happen to the system: a call of `Log`, a write to one of the writable
properties of logger.h 70-75, the destructor, or a step of the writer. -/
inductive Event
  | log (Level : Int) (szBuf : String) (Now : String → String) (deleted : Bool) (wait : WaitResult)
      (hNew : Option Nat)
  | setLevel (v : Int)
  | setAddReturns (v : Bool)
  | setTimeFormat (v : String)
  | setTimeStamp (v : Bool)
  | destroy
  | writer (env : Oracle)

/-- The file-stream answer carried by an event (`true` when it carries none). -/
def Event.opened : Event → Bool
  | Event.writer env => env.opened
  | _ => true

/-- Effect of one event. -/
def step (w : World) : Event → World
  | Event.log Level szBuf Now deleted wait hNew => TLogger.Log w Level szBuf Now deleted wait hNew
  | Event.setLevel v => { w with obj := { w.obj with FLevel := v } }
  | Event.setAddReturns v => { w with obj := { w.obj with FAddReturns := v } }
  | Event.setTimeFormat v => { w with obj := { w.obj with FTimeFormat := v } }
  | Event.setTimeStamp v => { w with obj := { w.obj with FTimeStamp := v } }
  | Event.destroy => TLogger.destructor w
  | Event.writer env => LoggerThread w env

/-- Effect of a sequence of events, first event first. -/
def run (w : World) (tr : List Event) : World :=
  tr.foldl step w

/-- The system right after `TLogger(File, Append)` over the files `fs`. -/
def boot (File : String) (Append : Bool) (fs : Files) : World :=
  { obj := TLogger.TLogger File Append
    files := fs
    pc := Pc.absent
    Filename := ""
    pushed := []
    handed := []
    attempts := 0
    started := 0 }

/-- A writer step that, when it enters `LoggerDoWrite`, also runs that call to its
end: the pop-and-write of the poll loop, or the write-and-delete of the drain loop,
as a single step. -/
def writerWhole (w : World) (env : Oracle) : World :=
  let w1 := LoggerThread w env
  if inLoggerDoWrite w1 then LoggerThread w1 env else w1

/-- The step model in which no state lies inside a call of `LoggerDoWrite`. -/
def stepWhole (w : World) : Event → World
  | Event.writer env => writerWhole w env
  | e => step w e

/-- Effect of a sequence of events in the model of `stepWhole`. -/
def runWhole (w : World) (tr : List Event) : World :=
  tr.foldl stepWhole w

/-- The entry the writer has removed from the queue and whose `LoggerDoWrite` call has
not returned yet. -/
def inflight (w : World) : List String :=
  match w.pc with
  | Pc.inWrite Msg => [Msg]
  | _ => []

/-- Facts that hold in every state reached from `boot File Append fs`. -/
structure Inv (File : String) (Append : Bool) (w : World) : Prop where
  append : w.obj.FAppend = Append
  file : w.obj.FFile = File
  name : w.pc ≠ Pc.absent → w.Filename = File
  nothread : w.obj.hThread = none → w.pc = Pc.absent
  once : w.started = if w.obj.hThread.isSome then 1 else 0
  conserve : w.handed ++ inflight w ++ w.obj.Strings = w.pushed
  active : w.obj.ActiveEvent = true ↔ ∃ m, w.pc = Pc.inWrite m

/-! ## Sample runs -/

/-- A clock that renders every pattern as the same instant. -/
def noon : String → String :=
  fun _ => "01/06/99 12:00:00 "

/-- A file system without files. -/
def noFiles : Files :=
  fun _ => none

/-- The writer finds the mutex busy for a second. -/
def Oracle.busy : Oracle :=
  { Oracle.good with wait := WaitResult.WAIT_TIMEOUT }

/-- The file stream cannot be constructed. -/
def Oracle.locked : Oracle :=
  { Oracle.good with opened := false }

/-- The scenario of the two lines: time stamps off, line ends on, `hello 1` is logged
and written by the writer, `world 2` is logged, the logger is destroyed and the
writer runs until it exits. -/
def twoLines : List Event :=
  [ Event.setTimeStamp false,
    Event.setAddReturns true,
    Event.log 5 "hello 1" noon false WaitResult.WAIT_OBJECT_0 (some 1),
    Event.writer Oracle.good,
    Event.writer Oracle.good,
    Event.writer Oracle.good,
    Event.writer Oracle.good,
    Event.log 5 "world 2" noon true WaitResult.WAIT_OBJECT_0 (some 2),
    Event.destroy,
    Event.writer Oracle.good,
    Event.writer Oracle.good,
    Event.writer Oracle.good,
    Event.writer Oracle.good ]

/-- A first entry is being written while two more are logged; the logger is destroyed
when the writer stands at the stop check with both of them queued. -/
def stopWithTwo : List Event :=
  [ Event.log 1 "a" noon true WaitResult.WAIT_OBJECT_0 (some 1),
    Event.writer Oracle.good,
    Event.writer Oracle.good,
    Event.log 2 "b" noon true WaitResult.WAIT_OBJECT_0 (some 2),
    Event.log 3 "c" noon true WaitResult.WAIT_OBJECT_0 (some 3),
    Event.writer Oracle.good,
    Event.destroy ]

/-- Two entries are logged, the logger is destroyed, the writer writes the first entry
in its poll loop, sees the stop event and takes the mutex: it stands at the condition
of the drain loop with the second entry queued. -/
def intoDrainLoop : List Event :=
  [ Event.log 1 "a" noon true WaitResult.WAIT_OBJECT_0 (some 1),
    Event.log 2 "b" noon true WaitResult.WAIT_OBJECT_0 (some 2),
    Event.writer Oracle.good,
    Event.destroy,
    Event.writer Oracle.good,
    Event.writer Oracle.good,
    Event.writer Oracle.good ]

/-- As `intoDrainLoop`, and the writer enters `LoggerDoWrite` for the second entry. -/
def intoDrainWrite : List Event :=
  intoDrainLoop ++ [Event.writer Oracle.good]

/-- One entry is logged and written, leaving the writer at the head of its loop. -/
def oneWritten : List Event :=
  [ Event.log 1 "a" noon false WaitResult.WAIT_OBJECT_0 (some 1),
    Event.writer Oracle.good,
    Event.writer Oracle.good,
    Event.writer Oracle.good,
    Event.writer Oracle.good ]

/-- Two entries are logged and the writer reaches the head of its loop. -/
def twoQueued : List Event :=
  [ Event.log 1 "a" noon true WaitResult.WAIT_OBJECT_0 (some 1),
    Event.log 2 "b" noon true WaitResult.WAIT_OBJECT_0 (some 2),
    Event.writer Oracle.good ]

/-- Two entries are logged; the writer writes the first one and takes the second one
off the queue: it is inside `LoggerDoWrite` for the second entry, and the file holds
the first. No file existed when `Log` was called, so neither `DeleteFile` removed one. -/
def intoSecondWrite : List Event :=
  [ Event.log 1 "a" noon false WaitResult.WAIT_OBJECT_0 (some 1),
    Event.log 2 "b" noon false WaitResult.WAIT_OBJECT_0 (some 2),
    Event.writer Oracle.good,
    Event.writer Oracle.good,
    Event.writer Oracle.good,
    Event.writer Oracle.good,
    Event.writer Oracle.good ]

/-- The state reached by `intoSecondWrite` without append mode. -/
def atSecondWrite : World :=
  run (boot "out.log" false noFiles) intoSecondWrite

/-- A logger over no files whose threshold has been lowered to 3. -/
def threshold3 : World :=
  step (boot "out.log" false noFiles) (Event.setLevel 3)

/-- The state reached by `stopWithTwo` in append mode. -/
def atStopCheck : World :=
  run (boot "out.log" true noFiles) stopWithTwo

/-- The state reached by `twoQueued` in append mode. -/
def atLoopTop : World :=
  run (boot "out.log" true noFiles) twoQueued

/-- The state reached by `intoDrainLoop` in append mode. -/
def atDrainLoop : World :=
  run (boot "out.log" true noFiles) intoDrainLoop

/-- The file holds the concatenation of a tail of what was passed to `LoggerDoWrite`. -/
def holdsTail (File : String) (w : World) : Prop :=
  ∃ k, k ≤ w.handed.length ∧ content (w.files File) = joined (w.handed.drop k)

/-! ## Lemmas -/

theorem joined_append (xs ys : List String) : joined (xs ++ ys) = joined xs ++ joined ys := by
  induction xs with
  | nil => simp [joined]
  | cons x xs ih => simp [joined, ih, String.append_assoc]

theorem content_LoggerDoWrite (fs : Files) (File Msg : String) :
    content (LoggerDoWrite fs File Msg true File) = content (fs File) ++ Msg := by
  unfold LoggerDoWrite FileExists store
  cases h : fs File <;> simp [content, h]

theorem LoggerDoWrite_other (fs : Files) (File Msg : String) (o : Bool) (p : String)
    (hp : p ≠ File) : LoggerDoWrite fs File Msg o p = fs p := by
  unfold LoggerDoWrite FileExists store
  cases o <;> simp [hp]
  split <;> simp [hp]

theorem LoggerDoWrite_refused (fs : Files) (File Msg : String) :
    LoggerDoWrite fs File Msg false = fs := by
  simp [LoggerDoWrite]

theorem Inv_boot (File : String) (Append : Bool) (fs : Files) :
    Inv File Append (boot File Append fs) := by
  constructor <;> simp [boot, TLogger.TLogger, inflight]

theorem Inv_Log {File : String} {Append : Bool} {w : World} (h : Inv File Append w)
    (Level : Int) (szBuf : String) (Now : String → String) (deleted : Bool) (wait : WaitResult)
    (hNew : Option Nat) : Inv File Append (TLogger.Log w Level szBuf Now deleted wait hNew) := by
  obtain ⟨h1, h2, h3, h4, h5, h6, h7⟩ := h
  unfold TLogger.Log
  by_cases hl : Level ≤ w.obj.FLevel
  · rw [if_pos hl]
    by_cases hw : wait = WaitResult.WAIT_OBJECT_0
    · simp only [hw, if_true]
      by_cases ht : w.obj.hThread = none
      · have hp := h4 ht
        simp only [ht, if_true]
        cases hNew with
        | none =>
          constructor <;> simp_all [inflight]
          rw [← h6]; simp
        | some t =>
          constructor <;> simp_all [inflight]
          rw [← h6]; simp
      · simp only [ht, if_false]
        constructor <;> simp_all [inflight]
        rw [← h6]; simp
    · simp only [hw, if_false]
      constructor <;> simp_all [inflight]
  · rw [if_neg hl]
    exact ⟨h1, h2, h3, h4, h5, h6, h7⟩

theorem Inv_LoggerThread {File : String} {Append : Bool} {w : World} (h : Inv File Append w)
    (env : Oracle) : Inv File Append (LoggerThread w env) := by
  obtain ⟨h1, h2, h3, h4, h5, h6, h7⟩ := h
  unfold LoggerThread
  split
  · exact ⟨h1, h2, h3, h4, h5, h6, h7⟩
  · split_ifs <;> constructor <;> simp_all [inflight]
  · split
    · constructor <;> simp_all [inflight]
    · split
      · constructor <;> simp_all [inflight]
      · constructor <;> simp_all [inflight]
    · constructor <;> simp_all [inflight]
    · exact ⟨h1, h2, h3, h4, h5, h6, h7⟩
  · constructor <;> simp_all [inflight]
  · split_ifs <;> constructor <;> simp_all [inflight]
  · split <;> constructor <;> simp_all [inflight]
  · split <;> constructor <;> simp_all [inflight]
  · exact ⟨h1, h2, h3, h4, h5, h6, h7⟩

theorem Inv_destructor {File : String} {Append : Bool} {w : World} (h : Inv File Append w) :
    Inv File Append (TLogger.destructor w) := by
  obtain ⟨h1, h2, h3, h4, h5, h6, h7⟩ := h
  unfold TLogger.destructor
  split_ifs
  · constructor <;> simp_all [inflight]
  · exact ⟨h1, h2, h3, h4, h5, h6, h7⟩

theorem Inv_step {File : String} {Append : Bool} {w : World} (h : Inv File Append w)
    (e : Event) : Inv File Append (step w e) := by
  cases e with
  | log Level szBuf Now deleted wait hNew => exact Inv_Log h _ _ _ _ _ _
  | destroy => exact Inv_destructor h
  | writer env => exact Inv_LoggerThread h env
  | setLevel v =>
    obtain ⟨h1, h2, h3, h4, h5, h6, h7⟩ := h
    constructor <;> simp_all [step, inflight]
  | setAddReturns v =>
    obtain ⟨h1, h2, h3, h4, h5, h6, h7⟩ := h
    constructor <;> simp_all [step, inflight]
  | setTimeFormat v =>
    obtain ⟨h1, h2, h3, h4, h5, h6, h7⟩ := h
    constructor <;> simp_all [step, inflight]
  | setTimeStamp v =>
    obtain ⟨h1, h2, h3, h4, h5, h6, h7⟩ := h
    constructor <;> simp_all [step, inflight]

theorem Inv_steps {File : String} {Append : Bool} (tr : List Event) :
    ∀ w : World, Inv File Append w → Inv File Append (run w tr) := by
  induction tr with
  | nil => intro w h; exact h
  | cons e es ih => intro w h; exact ih (step w e) (Inv_step h e)

theorem Inv_run (File : String) (Append : Bool) (fs : Files) (tr : List Event) :
    Inv File Append (run (boot File Append fs) tr) :=
  Inv_steps tr _ (Inv_boot File Append fs)

/-- In every state reached from the constructor the active event is set exactly while
the writer is inside the `LoggerDoWrite` call of its poll loop (line 120). -/
theorem active_iff_poll_write (File : String) (Append : Bool) (fs : Files) (tr : List Event) :
    TLogger.GetActive (run (boot File Append fs) tr).obj = true
      ↔ ∃ m, (run (boot File Append fs) tr).pc = Pc.inWrite m :=
  (Inv_run File Append fs tr).active

/-- In every state reached from the constructor, what was passed to `LoggerDoWrite`,
then the entry being written by the poll loop, then the queue, is what was pushed. -/
theorem conserved_with_inflight (File : String) (Append : Bool) (fs : Files)
    (tr : List Event) :
    (run (boot File Append fs) tr).handed ++ inflight (run (boot File Append fs) tr)
        ++ (run (boot File Append fs) tr).obj.Strings
      = (run (boot File Append fs) tr).pushed :=
  (Inv_run File Append fs tr).conserve

theorem Inv_writerWhole {File : String} {Append : Bool} {w : World} (h : Inv File Append w)
    (env : Oracle) : Inv File Append (writerWhole w env) := by
  unfold writerWhole
  simp only
  split_ifs
  · exact Inv_LoggerThread (Inv_LoggerThread h env) env
  · exact Inv_LoggerThread h env

theorem LoggerThread_leaves_write (w : World) (env : Oracle)
    (h : inLoggerDoWrite w = true) : inLoggerDoWrite (LoggerThread w env) = false := by
  unfold inLoggerDoWrite at h
  unfold LoggerThread
  split at h
  · next m hm => simp [hm, inLoggerDoWrite]
  · next hm =>
    simp only [hm]
    split <;> simp [inLoggerDoWrite]
  · simp at h

theorem writerWhole_settled (w : World) (env : Oracle) :
    inLoggerDoWrite (writerWhole w env) = false := by
  unfold writerWhole
  simp only
  split_ifs with h
  · exact LoggerThread_leaves_write _ env h
  · simpa using h

theorem Log_settled (w : World) (Level : Int) (szBuf : String) (Now : String → String)
    (deleted : Bool) (wait : WaitResult) (hNew : Option Nat) (h : inLoggerDoWrite w = false) :
    inLoggerDoWrite (TLogger.Log w Level szBuf Now deleted wait hNew) = false := by
  unfold TLogger.Log
  split_ifs <;> simp_all [inLoggerDoWrite]

theorem stepWhole_settled (w : World) (e : Event) (h : inLoggerDoWrite w = false) :
    inLoggerDoWrite (stepWhole w e) = false := by
  cases e with
  | log Level szBuf Now deleted wait hNew => exact Log_settled w _ _ _ _ _ _ h
  | writer env => exact writerWhole_settled w env
  | destroy =>
    simp only [stepWhole, step, TLogger.destructor]
    split_ifs <;> simpa [inLoggerDoWrite] using h
  | setLevel v => simpa [stepWhole, step, inLoggerDoWrite] using h
  | setAddReturns v => simpa [stepWhole, step, inLoggerDoWrite] using h
  | setTimeFormat v => simpa [stepWhole, step, inLoggerDoWrite] using h
  | setTimeStamp v => simpa [stepWhole, step, inLoggerDoWrite] using h

theorem Inv_stepWhole {File : String} {Append : Bool} {w : World} (h : Inv File Append w)
    (e : Event) : Inv File Append (stepWhole w e) := by
  cases e with
  | writer env => exact Inv_writerWhole h env
  | log Level szBuf Now deleted wait hNew => exact Inv_step h (Event.log Level szBuf Now deleted wait hNew)
  | destroy => exact Inv_step h Event.destroy
  | setLevel v => exact Inv_step h (Event.setLevel v)
  | setAddReturns v => exact Inv_step h (Event.setAddReturns v)
  | setTimeFormat v => exact Inv_step h (Event.setTimeFormat v)
  | setTimeStamp v => exact Inv_step h (Event.setTimeStamp v)

theorem runWhole_keeps (File : String) (Append : Bool) (tr : List Event) :
    ∀ w : World, Inv File Append w → inLoggerDoWrite w = false →
      Inv File Append (runWhole w tr) ∧ inLoggerDoWrite (runWhole w tr) = false := by
  induction tr with
  | nil => intro w h hs; exact ⟨h, hs⟩
  | cons e es ih =>
    intro w h hs
    exact ih (stepWhole w e) (Inv_stepWhole h e) (stepWhole_settled w e hs)

theorem inflight_settled (w : World) (h : inLoggerDoWrite w = false) : inflight w = [] := by
  unfold inLoggerDoWrite at h
  unfold inflight
  split at h <;> simp_all

theorem Log_files_append (w : World) (Level : Int) (szBuf : String) (Now : String → String)
    (deleted : Bool) (wait : WaitResult) (hNew : Option Nat) (ha : w.obj.FAppend = true) :
    (TLogger.Log w Level szBuf Now deleted wait hNew).files = w.files := by
  unfold TLogger.Log
  split_ifs <;> simp_all

theorem Log_files_delete (w : World) (Level : Int) (szBuf : String) (Now : String → String)
    (deleted : Bool) (wait : WaitResult) (hNew : Option Nat) (ha : w.obj.FAppend = false)
    (hl : Level ≤ w.obj.FLevel) :
    (TLogger.Log w Level szBuf Now deleted wait hNew).files
      = DeleteFile w.files w.obj.FFile deleted := by
  unfold TLogger.Log
  rw [if_pos hl]
  split_ifs <;> simp_all

theorem Log_handed (w : World) (Level : Int) (szBuf : String) (Now : String → String)
    (deleted : Bool) (wait : WaitResult) (hNew : Option Nat) :
    (TLogger.Log w Level szBuf Now deleted wait hNew).handed = w.handed := by
  unfold TLogger.Log
  split_ifs <;> rfl

theorem appended_LoggerThread {File : String} {w : World} (base : String)
    (h : Inv File true w) (hq : content (w.files File) = base ++ joined w.handed)
    (env : Oracle) (he : env.opened = true) :
    content ((LoggerThread w env).files File)
      = base ++ joined (LoggerThread w env).handed := by
  have hname := h.name
  unfold LoggerThread
  split
  · exact hq
  · split_ifs <;> exact hq
  · split
    · exact hq
    · split <;> exact hq
    · exact hq
    · exact hq
  · next m hm =>
    have hf : w.Filename = File := hname (by simp [hm])
    simp only [hf, he, content_LoggerDoWrite, hq, joined_append, joined,
      String.append_assoc, String.append_empty]
  · split_ifs <;> exact hq
  · split <;> exact hq
  · next hm =>
    have hf : w.Filename = File := hname (by simp [hm])
    split
    · simp only [hf, he, content_LoggerDoWrite, hq, joined_append, joined,
        String.append_assoc, String.append_empty]
    · exact hq
  · exact hq

theorem appended_step {File : String} {w : World} (base : String)
    (h : Inv File true w) (hq : content (w.files File) = base ++ joined w.handed)
    (e : Event) (he : e.opened = true) :
    content ((step w e).files File) = base ++ joined (step w e).handed := by
  cases e with
  | log Level szBuf Now deleted wait hNew =>
    simp only [step]
    rw [Log_files_append _ _ _ _ _ _ _ h.append, Log_handed]
    exact hq
  | writer env => exact appended_LoggerThread base h hq env he
  | destroy =>
    simp only [step, TLogger.destructor]
    split_ifs <;> exact hq
  | setLevel v => exact hq
  | setAddReturns v => exact hq
  | setTimeFormat v => exact hq
  | setTimeStamp v => exact hq

theorem appended_steps {File : String} (base : String) (tr : List Event) :
    ∀ w : World, Inv File true w → content (w.files File) = base ++ joined w.handed →
      (∀ e ∈ tr, e.opened = true) →
      content ((run w tr).files File) = base ++ joined (run w tr).handed := by
  induction tr with
  | nil => intro w _ hq _; exact hq
  | cons e es ih =>
    intro w h hq hall
    exact ih (step w e) (Inv_step h e) (appended_step base h hq e (hall e (by simp)))
      (fun x hx => hall x (by simp [hx]))

/-- The drain loop of lines 135-138, run from its condition: it ends after two steps per
queued entry and one more, whatever the file stream answers. -/
theorem drainLoop_runs (q : List String) :
    ∀ (w : World) (envs : List Oracle), w.pc = Pc.drainLoop → w.obj.Strings = q →
      envs.length = 2 * q.length + 1 →
      (run w (envs.map Event.writer)).pc = Pc.exited 0 ∧
      (run w (envs.map Event.writer)).obj.Strings = [] ∧
      (run w (envs.map Event.writer)).handed = w.handed ++ q ∧
      (∀ p, p ≠ w.Filename → (run w (envs.map Event.writer)).files p = w.files p) ∧
      ((∀ e ∈ envs, e.opened = true) →
        content ((run w (envs.map Event.writer)).files w.Filename)
          = content (w.files w.Filename) ++ joined q) := by
  induction q with
  | nil =>
    intro w envs hpc hq hlen
    match envs, hlen with
    | [e], _ =>
      simp [run, step, LoggerThread, hpc, hq, joined]
  | cons m rest ih =>
    intro w envs hpc hq hlen
    match envs, hlen with
    | e1 :: e2 :: envs', hlen =>
      have hlen' : envs'.length = 2 * rest.length + 1 := by
        simp at hlen; omega
      have h1 : LoggerThread w e1 = { w with pc := Pc.drainWrite } := by
        simp [LoggerThread, hpc, hq]
      have h2 : LoggerThread (LoggerThread w e1) e2 =
          { w with
            files := LoggerDoWrite w.files w.Filename m e2.opened
            obj := { w.obj with Strings := rest }
            handed := w.handed ++ [m]
            pc := Pc.drainLoop } := by
        rw [h1]; simp [LoggerThread, hq]
      have hrun : run w ((e1 :: e2 :: envs').map Event.writer)
          = run (LoggerThread (LoggerThread w e1) e2) (envs'.map Event.writer) := by
        simp [run, step]
      rw [hrun, h2]
      obtain ⟨a, b, c, e, f⟩ := ih
        { w with
          files := LoggerDoWrite w.files w.Filename m e2.opened
          obj := { w.obj with Strings := rest }
          handed := w.handed ++ [m]
          pc := Pc.drainLoop } envs' rfl rfl hlen'
      refine ⟨a, b, ?_, ?_, ?_⟩
      · rw [c]; simp
      · intro p hp
        rw [e p hp]
        exact LoggerDoWrite_other _ _ _ _ _ hp
      · intro hall
        have he2 : e2.opened = true := hall e2 (by simp)
        have hrest : ∀ x ∈ envs', x.opened = true := fun x hx => hall x (by simp [hx])
        rw [f hrest]
        simp only [he2, content_LoggerDoWrite, joined, String.append_assoc]

theorem joined_drop_snoc (xs : List String) (m : String) (k : Nat) (hk : k ≤ xs.length) :
    joined ((xs ++ [m]).drop k) = joined (xs.drop k) ++ m := by
  rw [List.drop_append_of_le_length hk, joined_append]
  simp [joined]

theorem holdsTail_LoggerThread {File : String} {Append : Bool} {w : World}
    (h : Inv File Append w) (hq : holdsTail File w) (env : Oracle)
    (he : env.opened = true) : holdsTail File (LoggerThread w env) := by
  have hname := h.name
  obtain ⟨k, hk, hc⟩ := hq
  unfold LoggerThread
  split
  · exact ⟨k, hk, hc⟩
  · split_ifs <;> exact ⟨k, hk, hc⟩
  · split
    · exact ⟨k, hk, hc⟩
    · split <;> exact ⟨k, hk, hc⟩
    · exact ⟨k, hk, hc⟩
    · exact ⟨k, hk, hc⟩
  · next m hm =>
    have hf : w.Filename = File := hname (by simp [hm])
    refine ⟨k, by simp; omega, ?_⟩
    simp only [hf, he, content_LoggerDoWrite, hc, joined_drop_snoc _ _ _ hk]
  · split_ifs <;> exact ⟨k, hk, hc⟩
  · split <;> exact ⟨k, hk, hc⟩
  · next hm =>
    have hf : w.Filename = File := hname (by simp [hm])
    split
    · refine ⟨k, by simp; omega, ?_⟩
      simp only [hf, he, content_LoggerDoWrite, hc, joined_drop_snoc _ _ _ hk]
    · exact ⟨k, hk, hc⟩
  · exact ⟨k, hk, hc⟩

theorem holdsTail_Log {File : String} {Append : Bool} {w : World}
    (h : Inv File Append w) (hq : holdsTail File w) (Level : Int) (szBuf : String)
    (Now : String → String) (deleted : Bool) (wait : WaitResult) (hNew : Option Nat) :
    holdsTail File (TLogger.Log w Level szBuf Now deleted wait hNew) := by
  unfold holdsTail
  rw [Log_handed]
  by_cases hl : Level ≤ w.obj.FLevel
  · cases ha : w.obj.FAppend
    · rw [Log_files_delete _ _ _ _ _ _ _ ha hl, h.file]
      cases deleted
      · exact hq
      · exact ⟨w.handed.length, le_refl _, by simp [DeleteFile, content, joined]⟩
    · rw [Log_files_append _ _ _ _ _ _ _ ha]
      exact hq
  · have : TLogger.Log w Level szBuf Now deleted wait hNew = w := by
      unfold TLogger.Log
      rw [if_neg hl]
    rw [this]
    exact hq

theorem holdsTail_step {File : String} {Append : Bool} {w : World}
    (h : Inv File Append w) (hq : holdsTail File w) (e : Event) (he : e.opened = true) :
    holdsTail File (step w e) := by
  cases e with
  | log Level szBuf Now deleted wait hNew => exact holdsTail_Log h hq _ _ _ _ _ _
  | writer env => exact holdsTail_LoggerThread h hq env he
  | destroy =>
    simp only [step, TLogger.destructor]
    split_ifs <;> exact hq
  | setLevel v => exact hq
  | setAddReturns v => exact hq
  | setTimeFormat v => exact hq
  | setTimeStamp v => exact hq

theorem holdsTail_steps {File : String} {Append : Bool} (tr : List Event) :
    ∀ w : World, Inv File Append w → holdsTail File w → (∀ e ∈ tr, e.opened = true) →
      holdsTail File (run w tr) := by
  induction tr with
  | nil => intro w _ hq _; exact hq
  | cons e es ih =>
    intro w h hq hall
    exact ih (step w e) (Inv_step h e) (holdsTail_step h hq e (hall e (by simp)))
      (fun x hx => hall x (by simp [hx]))

theorem LoggerThread_attempts (w : World) (env : Oracle) :
    (LoggerThread w env).attempts = w.attempts := by
  unfold LoggerThread
  split
  · rfl
  · split_ifs <;> rfl
  · split
    · rfl
    · split <;> rfl
    · rfl
    · rfl
  · rfl
  · split_ifs <;> rfl
  · split <;> rfl
  · split <;> rfl
  · rfl

/-! ## The claims -/

/-- C1: a call of `Log` whose `Level` is above `FLevel` changes nothing at all: the queue,
the files, `hThread`, the writer thread and both events are as before. -/
theorem Log_filtered_noop (w : World) (Level : Int) (szBuf : String) (Now : String → String)
    (deleted : Bool) (wait : WaitResult) (hNew : Option Nat) (h : w.obj.FLevel < Level) :
    TLogger.Log w Level szBuf Now deleted wait hNew = w := by
  unfold TLogger.Log
  rw [if_neg (by omega)]

/-- C1 at threshold 3 and `Log(5, "skip me")`. -/
theorem Log_filtered_noop_witness :
    threshold3.obj.FLevel < 5 ∧
    TLogger.Log threshold3 5 "skip me" noon true WaitResult.WAIT_OBJECT_0 (some 1) = threshold3 :=
  ⟨by decide,
    Log_filtered_noop threshold3 5 "skip me" noon true WaitResult.WAIT_OBJECT_0 (some 1) (by decide)⟩

/-- C2 as stated fails for `Append = false`: in the two-line scenario the writer has
written `hello 1` when `world 2` is logged, that call deletes the file, and after the
drain and the exit of the writer the file holds `world 2` alone. -/
theorem fifo_fails_without_append :
    noFiles "out.log" = none ∧
    (∀ e ∈ twoLines, e.opened = true) ∧
    (run (boot "out.log" false noFiles) twoLines).pc = Pc.exited 0 ∧
    (run (boot "out.log" false noFiles) twoLines).obj.StopEvent = true ∧
    (run (boot "out.log" false noFiles) twoLines).obj.Strings = [] ∧
    (run (boot "out.log" false noFiles) twoLines).pushed = ["hello 1\r\n", "world 2\r\n"] ∧
    (run (boot "out.log" false noFiles) twoLines).files "out.log" = some "world 2\r\n" ∧
    content ((run (boot "out.log" false noFiles) twoLines).files "out.log")
      ≠ joined (run (boot "out.log" false noFiles) twoLines).pushed := by
  decide

/-- C2, amended: let the target file be absent or empty at construction and let no file
stream fail to open. Whatever the order of `Log` calls, property writes, the destructor
and writer steps, once the writer has exited with status 0 and the queue is empty, the
file of a logger constructed with `Append = true` holds every pushed entry, in push
order, each once; for `Append = false` it holds the entries of a tail of the push
order, each once. -/
theorem fifo_after_exit (File : String) (Append : Bool) (fs : Files) (tr : List Event)
    (hfresh : content (fs File) = "")
    (hopen : ∀ e ∈ tr, e.opened = true)
    (hexit : (run (boot File Append fs) tr).pc = Pc.exited 0)
    (hdrained : (run (boot File Append fs) tr).obj.Strings = []) :
    (Append = true →
      content ((run (boot File Append fs) tr).files File)
        = joined (run (boot File Append fs) tr).pushed) ∧
    ∃ k, content ((run (boot File Append fs) tr).files File)
        = joined ((run (boot File Append fs) tr).pushed.drop k) := by
  have hinv := Inv_run File Append fs tr
  have hcons := hinv.conserve
  rw [hdrained] at hcons
  simp only [inflight, hexit, List.append_nil] at hcons
  constructor
  · intro ha
    subst ha
    have hfile := appended_steps (content (fs File)) tr (boot File true fs)
      (Inv_boot File true fs) (by simp [boot, joined]) hopen
    rw [hfile, hcons, hfresh, String.empty_append]
  · obtain ⟨k, _, hk⟩ := holdsTail_steps tr (boot File Append fs) (Inv_boot File Append fs)
      ⟨0, Nat.zero_le _, by simp [boot, joined, hfresh]⟩ hopen
    exact ⟨k, by rw [hk, hcons]⟩

/-- C2, amended, at the two-line scenario in both modes. -/
theorem fifo_after_exit_witness :
    content (noFiles "out.log") = "" ∧
    (∀ e ∈ twoLines, e.opened = true) ∧
    (run (boot "out.log" true noFiles) twoLines).pc = Pc.exited 0 ∧
    (run (boot "out.log" true noFiles) twoLines).obj.Strings = [] ∧
    (run (boot "out.log" false noFiles) twoLines).pc = Pc.exited 0 ∧
    (run (boot "out.log" false noFiles) twoLines).obj.Strings = [] ∧
    content ((run (boot "out.log" true noFiles) twoLines).files "out.log")
      = joined (run (boot "out.log" true noFiles) twoLines).pushed ∧
    ∃ k, content ((run (boot "out.log" false noFiles) twoLines).files "out.log")
      = joined ((run (boot "out.log" false noFiles) twoLines).pushed.drop k) :=
  ⟨by decide, by decide, by decide, by decide, by decide, by decide,
    (fifo_after_exit "out.log" true noFiles twoLines (by decide) (by decide) (by decide)
      (by decide)).1 rfl,
    (fifo_after_exit "out.log" false noFiles twoLines (by decide) (by decide) (by decide)
      (by decide)).2⟩

/-- C3 as stated fails when the wait on the queue mutex does not return `WAIT_OBJECT_0`:
the call passes the level filter and nothing is appended. -/
theorem Log_wait_abandoned_drops :
    (1 : Int) ≤ (boot "out.log" true noFiles).obj.FLevel ∧
    (TLogger.Log (boot "out.log" true noFiles) 1 "lost" noon true
        WaitResult.WAIT_ABANDONED (some 1)).obj.Strings = [] ∧
    (TLogger.Log (boot "out.log" true noFiles) 1 "lost" noon true
        WaitResult.WAIT_ABANDONED (some 1)).obj.Strings
      ≠ (boot "out.log" true noFiles).obj.Strings
          ++ [render (boot "out.log" true noFiles).obj "lost" noon] := by
  decide

/-- C3, amended: a call of `Log` with `Level ≤ FLevel` whose wait on the queue mutex
returns `WAIT_OBJECT_0` appends exactly one entry at the tail of the queue and leaves
the entries before it as they were; the entry is the time stamp (when `FTimeStamp`),
then the rendered text, then `"\r\n"` (when `FAddReturns`). -/
theorem Log_pushes_entry (w : World) (Level : Int) (szBuf : String) (Now : String → String)
    (deleted : Bool) (wait : WaitResult) (hNew : Option Nat) (h : Level ≤ w.obj.FLevel)
    (hw : wait = WaitResult.WAIT_OBJECT_0) :
    (TLogger.Log w Level szBuf Now deleted wait hNew).obj.Strings
      = w.obj.Strings ++
        [(if w.obj.FTimeStamp then Now w.obj.FTimeFormat else "") ++ szBuf
          ++ (if w.obj.FAddReturns then "\r\n" else "")] ∧
    (TLogger.Log w Level szBuf Now deleted wait hNew).pushed
      = w.pushed ++
        [(if w.obj.FTimeStamp then Now w.obj.FTimeFormat else "") ++ szBuf
          ++ (if w.obj.FAddReturns then "\r\n" else "")] := by
  unfold TLogger.Log
  rw [if_pos h]
  simp only [hw, if_true]
  by_cases ht : w.obj.hThread = none <;> by_cases hr : w.obj.FAddReturns = true <;>
    simp [ht, hr, render]

/-- C3, amended, at a queue that already holds two entries. -/
theorem Log_pushes_entry_witness :
    (3 : Int) ≤ atLoopTop.obj.FLevel ∧
    atLoopTop.obj.Strings = ["01/06/99 12:00:00 a", "01/06/99 12:00:00 b"] ∧
    (TLogger.Log atLoopTop 3 "c" noon true WaitResult.WAIT_OBJECT_0 none).obj.Strings
      = atLoopTop.obj.Strings ++
        [(if atLoopTop.obj.FTimeStamp then noon atLoopTop.obj.FTimeFormat else "") ++ "c"
          ++ (if atLoopTop.obj.FAddReturns then "\r\n" else "")] ∧
    (TLogger.Log atLoopTop 3 "c" noon true WaitResult.WAIT_OBJECT_0 none).pushed
      = atLoopTop.pushed ++
        [(if atLoopTop.obj.FTimeStamp then noon atLoopTop.obj.FTimeFormat else "") ++ "c"
          ++ (if atLoopTop.obj.FAddReturns then "\r\n" else "")] :=
  ⟨by decide, by decide,
    Log_pushes_entry atLoopTop 3 "c" noon true WaitResult.WAIT_OBJECT_0 none (by decide) rfl⟩

/-- C4: when the stop event is set and the writer, standing at the stop check, gets the
queue mutex, the drain loop ends after two steps per queued entry and one more: every
queued entry has been passed to `LoggerDoWrite` in queue order, the queue is empty and
the thread has returned 0; no other file is touched, and when no file stream fails to
open the file holds its former content followed by the entries. -/
theorem drain_law (w : World) (env0 : Oracle) (envs : List Oracle)
    (hpc : w.pc = Pc.checkStop) (hstop : w.obj.StopEvent = true)
    (hacq : env0.wait = WaitResult.WAIT_OBJECT_0)
    (hlen : envs.length = 2 * w.obj.Strings.length + 1) :
    (run w (Event.writer env0 :: envs.map Event.writer)).pc = Pc.exited 0 ∧
    (run w (Event.writer env0 :: envs.map Event.writer)).obj.Strings = [] ∧
    (run w (Event.writer env0 :: envs.map Event.writer)).handed = w.handed ++ w.obj.Strings ∧
    (∀ p, p ≠ w.Filename →
      (run w (Event.writer env0 :: envs.map Event.writer)).files p = w.files p) ∧
    ((∀ e ∈ envs, e.opened = true) →
      content ((run w (Event.writer env0 :: envs.map Event.writer)).files w.Filename)
        = content (w.files w.Filename) ++ joined w.obj.Strings) := by
  have h0 : LoggerThread w env0 = { w with pc := Pc.drainLoop } := by
    simp [LoggerThread, hpc, hstop, hacq]
  have hrun : run w (Event.writer env0 :: envs.map Event.writer)
      = run { w with pc := Pc.drainLoop } (envs.map Event.writer) := by
    simp [run, step, h0]
  rw [hrun]
  exact drainLoop_runs w.obj.Strings { w with pc := Pc.drainLoop } envs rfl rfl hlen

/-- C4 at a queue of two entries, pushed while a first entry was being written. -/
theorem drain_law_witness :
    atStopCheck.pc = Pc.checkStop ∧
    atStopCheck.obj.StopEvent = true ∧
    Oracle.good.wait = WaitResult.WAIT_OBJECT_0 ∧
    (List.replicate 5 Oracle.good).length = 2 * atStopCheck.obj.Strings.length + 1 ∧
    (∀ e ∈ List.replicate 5 Oracle.good, e.opened = true) ∧
    (run atStopCheck
        (Event.writer Oracle.good :: (List.replicate 5 Oracle.good).map Event.writer)).pc
      = Pc.exited 0 ∧
    (run atStopCheck
        (Event.writer Oracle.good :: (List.replicate 5 Oracle.good).map Event.writer)).obj.Strings
      = [] ∧
    (run atStopCheck
        (Event.writer Oracle.good :: (List.replicate 5 Oracle.good).map Event.writer)).handed
      = atStopCheck.handed ++ atStopCheck.obj.Strings ∧
    content ((run atStopCheck
        (Event.writer Oracle.good :: (List.replicate 5 Oracle.good).map Event.writer)).files
          atStopCheck.Filename)
      = content (atStopCheck.files atStopCheck.Filename) ++ joined atStopCheck.obj.Strings :=
  ⟨by decide, by decide, by decide, by decide, by decide,
    (drain_law atStopCheck Oracle.good (List.replicate 5 Oracle.good)
      (by decide) (by decide) (by decide) (by decide)).1,
    (drain_law atStopCheck Oracle.good (List.replicate 5 Oracle.good)
      (by decide) (by decide) (by decide) (by decide)).2.1,
    (drain_law atStopCheck Oracle.good (List.replicate 5 Oracle.good)
      (by decide) (by decide) (by decide) (by decide)).2.2.1,
    (drain_law atStopCheck Oracle.good (List.replicate 5 Oracle.good)
      (by decide) (by decide) (by decide) (by decide)).2.2.2.2 (by decide)⟩

/-- C5 as stated fails while the writer has the file open: the first entry is in the
file, the writer is inside `LoggerDoWrite` for the second, and a call of `Log` that
passes the level filter in a logger without append mode has its `DeleteFile` refused;
the content written earlier is still there after the call. -/
theorem Log_delete_refused_keeps_file :
    atSecondWrite.obj.FAppend = false ∧
    atSecondWrite.pc = Pc.inWrite "01/06/99 12:00:00 b" ∧
    inLoggerDoWrite atSecondWrite = true ∧
    atSecondWrite.files "out.log" = some "01/06/99 12:00:00 a" ∧
    (3 : Int) ≤ atSecondWrite.obj.FLevel ∧
    (TLogger.Log atSecondWrite 3 "c" noon false WaitResult.WAIT_OBJECT_0 none).files "out.log"
      = some "01/06/99 12:00:00 a" ∧
    (TLogger.Log atSecondWrite 3 "c" noon false WaitResult.WAIT_OBJECT_0 none).files "out.log"
      ≠ none := by
  decide

/-- C5, amended: in every state reached by a logger constructed with `Append = false`, a
call of `Log` that passes the level filter calls `DeleteFile` on the target path: when
the call succeeds no file is left under that path, whatever had been written there;
when it is refused every file is as before; no other path is touched in either case.
For a logger constructed with `Append = true` no call of `Log` changes any file. -/
theorem Log_deletes_when_granted (File : String) (Append : Bool) (fs : Files)
    (tr : List Event) (Level : Int) (szBuf : String) (Now : String → String)
    (deleted : Bool) (wait : WaitResult) (hNew : Option Nat) :
    (Append = false → Level ≤ (run (boot File Append fs) tr).obj.FLevel →
      (deleted = true →
        (TLogger.Log (run (boot File Append fs) tr) Level szBuf Now deleted wait hNew).files File
          = none) ∧
      (deleted = false →
        (TLogger.Log (run (boot File Append fs) tr) Level szBuf Now deleted wait hNew).files
          = (run (boot File Append fs) tr).files) ∧
      ∀ p, p ≠ File →
        (TLogger.Log (run (boot File Append fs) tr) Level szBuf Now deleted wait hNew).files p
          = (run (boot File Append fs) tr).files p) ∧
    (Append = true →
      (TLogger.Log (run (boot File Append fs) tr) Level szBuf Now deleted wait hNew).files
        = (run (boot File Append fs) tr).files) := by
  have hinv := Inv_run File Append fs tr
  constructor
  · intro ha hl
    have hA : (run (boot File Append fs) tr).obj.FAppend = false := by rw [hinv.append, ha]
    rw [Log_files_delete _ _ _ _ _ _ _ hA hl, hinv.file]
    refine ⟨?_, ?_, ?_⟩
    · intro hd
      simp [DeleteFile, hd]
    · intro hd
      simp [DeleteFile, hd]
    · intro p hp
      cases deleted <;> simp [DeleteFile, hp]
  · intro ha
    have hA : (run (boot File Append fs) tr).obj.FAppend = true := by rw [hinv.append, ha]
    exact Log_files_append _ _ _ _ _ _ _ hA

/-- C5, amended, on later calls: with the first entry written and the file closed, the
next call of `Log` removes the file; with the writer inside `LoggerDoWrite` the delete
is refused and the file stays; in append mode the call leaves the file in place. -/
theorem Log_deletes_when_granted_witness :
    (run (boot "out.log" false noFiles) oneWritten).files "out.log"
      = some "01/06/99 12:00:00 a" ∧
    (2 : Int) ≤ (run (boot "out.log" false noFiles) oneWritten).obj.FLevel ∧
    (3 : Int) ≤ (run (boot "out.log" false noFiles) intoSecondWrite).obj.FLevel ∧
    (TLogger.Log (run (boot "out.log" false noFiles) oneWritten) 2 "b" noon true
        WaitResult.WAIT_OBJECT_0 none).files "out.log" = none ∧
    (TLogger.Log (run (boot "out.log" false noFiles) intoSecondWrite) 3 "c" noon false
        WaitResult.WAIT_OBJECT_0 none).files
      = (run (boot "out.log" false noFiles) intoSecondWrite).files ∧
    (TLogger.Log (run (boot "out.log" true noFiles) oneWritten) 2 "b" noon true
        WaitResult.WAIT_OBJECT_0 none).files
      = (run (boot "out.log" true noFiles) oneWritten).files :=
  ⟨by decide, by decide, by decide,
    ((Log_deletes_when_granted "out.log" false noFiles oneWritten 2 "b" noon true
      WaitResult.WAIT_OBJECT_0 none).1 rfl (by decide)).1 rfl,
    ((Log_deletes_when_granted "out.log" false noFiles intoSecondWrite 3 "c" noon false
      WaitResult.WAIT_OBJECT_0 none).1 rfl (by decide)).2.1 rfl,
    (Log_deletes_when_granted "out.log" true noFiles oneWritten 2 "b" noon true
      WaitResult.WAIT_OBJECT_0 none).2 rfl⟩

/-- C6 fails in the drain loop: two entries are logged, the destructor sets the stop
event, the writer writes the first entry in its poll loop, sees the stop event, takes
the mutex and is inside `LoggerDoWrite` for the second entry while `GetActive`
reports `false`. -/
theorem drain_write_not_active :
    (run (boot "out.log" true noFiles) intoDrainWrite).pc = Pc.drainWrite ∧
    inLoggerDoWrite (run (boot "out.log" true noFiles) intoDrainWrite) = true ∧
    TLogger.GetActive (run (boot "out.log" true noFiles) intoDrainWrite).obj = false := by
  decide

/-- C7 as stated fails when the wait on the queue mutex does not return `WAIT_OBJECT_0`:
the call passes the level filter, `hThread` is `NULL`, and `CreateThread` is not
reached. -/
theorem Log_wait_failed_no_start :
    (1 : Int) ≤ (boot "out.log" true noFiles).obj.FLevel ∧
    (boot "out.log" true noFiles).obj.hThread = none ∧
    (TLogger.Log (boot "out.log" true noFiles) 1 "x" noon true
        WaitResult.WAIT_FAILED (some 1)).attempts = (boot "out.log" true noFiles).attempts ∧
    (TLogger.Log (boot "out.log" true noFiles) 1 "x" noon true
        WaitResult.WAIT_FAILED (some 1)).obj.hThread = none := by
  decide

/-- C7, amended: in every state reached from the constructor, a call of `Log` reaches
`CreateThread` exactly when it passes the level filter, its wait on the queue mutex
returns `WAIT_OBJECT_0` and `hThread` is `NULL`; no other event reaches it; at most one
thread is ever created; and when `CreateThread` fails, the entry is at the tail of the
queue and `hThread` is still `NULL`, so that the next such call tries again. -/
theorem writer_started_once (File : String) (Append : Bool) (fs : Files) (tr : List Event)
    (Level : Int) (szBuf : String) (Now : String → String) (deleted : Bool) (wait : WaitResult)
    (hNew : Option Nat) :
    (run (boot File Append fs) tr).started ≤ 1 ∧
    (TLogger.Log (run (boot File Append fs) tr) Level szBuf Now deleted wait hNew).attempts
      = (if Level ≤ (run (boot File Append fs) tr).obj.FLevel
            ∧ wait = WaitResult.WAIT_OBJECT_0
            ∧ (run (boot File Append fs) tr).obj.hThread = none
          then (run (boot File Append fs) tr).attempts + 1
          else (run (boot File Append fs) tr).attempts) ∧
    (∀ env, (LoggerThread (run (boot File Append fs) tr) env).attempts
        = (run (boot File Append fs) tr).attempts) ∧
    (TLogger.destructor (run (boot File Append fs) tr)).attempts
      = (run (boot File Append fs) tr).attempts ∧
    (Level ≤ (run (boot File Append fs) tr).obj.FLevel → wait = WaitResult.WAIT_OBJECT_0 →
      (run (boot File Append fs) tr).obj.hThread = none → hNew = none →
      (TLogger.Log (run (boot File Append fs) tr) Level szBuf Now deleted wait hNew).obj.hThread = none ∧
      (TLogger.Log (run (boot File Append fs) tr) Level szBuf Now deleted wait hNew).obj.Strings
        = (run (boot File Append fs) tr).obj.Strings
            ++ [render (run (boot File Append fs) tr).obj szBuf Now]) := by
  have hinv := Inv_run File Append fs tr
  refine ⟨?_, ?_, ?_, ?_, ?_⟩
  · rw [hinv.once]; split_ifs <;> omega
  · unfold TLogger.Log
    split_ifs <;> simp_all
  · intro env
    exact LoggerThread_attempts _ env
  · unfold TLogger.destructor
    split_ifs <;> rfl
  · intro hl hw ht hn
    unfold TLogger.Log
    simp [hl, hw, ht, hn]

/-- C7, amended, on a failed start followed by a second call. -/
theorem writer_started_once_witness :
    (TLogger.Log (boot "out.log" true noFiles) 1 "a" noon true
        WaitResult.WAIT_OBJECT_0 none).obj.hThread = none ∧
    (TLogger.Log (boot "out.log" true noFiles) 1 "a" noon true
        WaitResult.WAIT_OBJECT_0 none).obj.Strings
      = (boot "out.log" true noFiles).obj.Strings
          ++ [render (boot "out.log" true noFiles).obj "a" noon] ∧
    (TLogger.Log (run (boot "out.log" true noFiles)
        [Event.log 1 "a" noon true WaitResult.WAIT_OBJECT_0 none]) 2 "b" noon true
        WaitResult.WAIT_OBJECT_0 (some 7)).attempts = 2 :=
  ⟨((writer_started_once "out.log" true noFiles [] 1 "a" noon true
      WaitResult.WAIT_OBJECT_0 none).2.2.2.2 (by decide) rfl rfl rfl).1,
    ((writer_started_once "out.log" true noFiles [] 1 "a" noon true
      WaitResult.WAIT_OBJECT_0 none).2.2.2.2 (by decide) rfl rfl rfl).2,
    by
      have h := (writer_started_once "out.log" true noFiles
        [Event.log 1 "a" noon true WaitResult.WAIT_OBJECT_0 none] 2 "b" noon true
        WaitResult.WAIT_OBJECT_0 (some 7)).2.1
      rw [h]
      decide⟩

/-- C9: when the writer takes the head `m` of a non-empty queue and the file stream
cannot be opened, the queue is left with the entries behind `m` in their order, no file
is changed, the active event is raised during the call and lowered after it, and the
writer stands at the stop check, from which it returns to the head of its loop unless
the stop event is set. The same holds for an iteration of the drain loop, which goes
back to its condition. -/
theorem open_failure_drops_head (w : World) (env1 env2 env3 : Oracle) (m : String)
    (rest : List String) (hq : w.obj.Strings = m :: rest) (hfail : env2.opened = false) :
    (w.pc = Pc.loopTop → env1.wait = WaitResult.WAIT_OBJECT_0 →
      (LoggerThread w env1).pc = Pc.inWrite m ∧
      TLogger.GetActive (LoggerThread w env1).obj = true ∧
      (LoggerThread (LoggerThread w env1) env2).obj.Strings = rest ∧
      (LoggerThread (LoggerThread w env1) env2).files = w.files ∧
      TLogger.GetActive (LoggerThread (LoggerThread w env1) env2).obj = false ∧
      (LoggerThread (LoggerThread w env1) env2).pc = Pc.checkStop ∧
      (w.obj.StopEvent = false →
        (LoggerThread (LoggerThread (LoggerThread w env1) env2) env3).pc = Pc.loopTop)) ∧
    (w.pc = Pc.drainLoop →
      (LoggerThread (LoggerThread w env1) env2).obj.Strings = rest ∧
      (LoggerThread (LoggerThread w env1) env2).files = w.files ∧
      TLogger.GetActive (LoggerThread (LoggerThread w env1) env2).obj
        = TLogger.GetActive w.obj ∧
      (LoggerThread (LoggerThread w env1) env2).pc = Pc.drainLoop) := by
  constructor
  · intro hpc hacq
    have h1 : LoggerThread w env1 =
        { w with
          obj := { w.obj with Strings := rest, ActiveEvent := true }
          pc := Pc.inWrite m } := by
      simp [LoggerThread, hpc, hacq, hq]
    rw [h1]
    simp [LoggerThread, TLogger.GetActive, hfail, LoggerDoWrite_refused]
    intro hs
    simp [hs]
  · intro hpc
    have h1 : LoggerThread w env1 = { w with pc := Pc.drainWrite } := by
      simp [LoggerThread, hpc, hq]
    rw [h1]
    simp [LoggerThread, TLogger.GetActive, hq, hfail, LoggerDoWrite_refused]

/-- C9 at a poll-loop iteration and at a drain-loop iteration, each with two or one
entries queued and a file stream that cannot be opened. -/
theorem open_failure_drops_head_witness :
    atLoopTop.obj.Strings = ["01/06/99 12:00:00 a", "01/06/99 12:00:00 b"] ∧
    Oracle.locked.opened = false ∧
    atLoopTop.pc = Pc.loopTop ∧
    atLoopTop.obj.StopEvent = false ∧
    atDrainLoop.obj.Strings = ["01/06/99 12:00:00 b"] ∧
    atDrainLoop.pc = Pc.drainLoop ∧
    ((LoggerThread atLoopTop Oracle.good).pc = Pc.inWrite "01/06/99 12:00:00 a" ∧
      TLogger.GetActive (LoggerThread atLoopTop Oracle.good).obj = true ∧
      (LoggerThread (LoggerThread atLoopTop Oracle.good) Oracle.locked).obj.Strings
        = ["01/06/99 12:00:00 b"] ∧
      (LoggerThread (LoggerThread atLoopTop Oracle.good) Oracle.locked).files
        = atLoopTop.files ∧
      TLogger.GetActive (LoggerThread (LoggerThread atLoopTop Oracle.good) Oracle.locked).obj
        = false ∧
      (LoggerThread (LoggerThread atLoopTop Oracle.good) Oracle.locked).pc = Pc.checkStop ∧
      (atLoopTop.obj.StopEvent = false →
        (LoggerThread (LoggerThread (LoggerThread atLoopTop Oracle.good) Oracle.locked)
          Oracle.good).pc = Pc.loopTop)) ∧
    ((LoggerThread (LoggerThread atDrainLoop Oracle.good) Oracle.locked).obj.Strings = [] ∧
      (LoggerThread (LoggerThread atDrainLoop Oracle.good) Oracle.locked).files
        = atDrainLoop.files ∧
      TLogger.GetActive (LoggerThread (LoggerThread atDrainLoop Oracle.good) Oracle.locked).obj
        = TLogger.GetActive atDrainLoop.obj ∧
      (LoggerThread (LoggerThread atDrainLoop Oracle.good) Oracle.locked).pc = Pc.drainLoop) :=
  ⟨by decide, by decide, by decide, by decide, by decide, by decide,
    (open_failure_drops_head atLoopTop Oracle.good Oracle.locked Oracle.good
      "01/06/99 12:00:00 a" ["01/06/99 12:00:00 b"] (by decide) (by decide)).1
      (by decide) (by decide),
    (open_failure_drops_head atDrainLoop Oracle.good Oracle.locked Oracle.good
      "01/06/99 12:00:00 b" [] (by decide) (by decide)).2 (by decide)⟩

/-- C10: in the step model whose writer steps run each `LoggerDoWrite` call to its end,
every state reached from the constructor satisfies: the entries passed to
`LoggerDoWrite`, followed by the entries in the queue, are the entries pushed, in
order. -/
theorem conservation (File : String) (Append : Bool) (fs : Files) (tr : List Event) :
    (runWhole (boot File Append fs) tr).handed ++ (runWhole (boot File Append fs) tr).obj.Strings
      = (runWhole (boot File Append fs) tr).pushed := by
  obtain ⟨hinv, hs⟩ := runWhole_keeps File Append tr (boot File Append fs)
    (Inv_boot File Append fs) (by simp [boot, inLoggerDoWrite])
  have h := hinv.conserve
  rw [inflight_settled _ hs] at h
  simpa using h

end Logger
